import Mathlib

/-!
Verification of the stock-screener core against its specification.

The definitions below are a shallow embedding of the Python sources:

* `app/services/llm_service.py`   — classifier (remote parse + rule-based fallback)
* `app/services/redis_service.py` — store gateway (radar list / membership set)
* `app/services/radar_queue.py`   — radar queue service
* `app/services/screener_orchestrator.py` — per-symbol pipeline and batch run
* `app/utils/rate_limiter.py`     — sliding-window rate limiter

Python floats are modelled as rationals (every constant involved is an exact
small dyadic or decimal, and no comparison in the verified code paths lands on
a float-rounding boundary), strings as `String` or `List Char`, dictionaries
with a fixed key set as structures of `Option` fields (`none` models both a
missing key and an explicit `None` value, which the code treats identically
via `.get(k) is not None`).  External library calls (`json.loads`,
`requests.post`, `redis`, the wall clock) are inputs of the embedded
functions.
-/

namespace StockScreener

/-- Model of the analysis dictionary built by `LLMBreakoutService`
(`llm_service.py`).  The `signals` and `reasoning` entries are free-text
payloads that no verified claim inspects; they are not modelled.
`is_breakout` is stored truthiness-normalised, which is how every reader of
the dictionary consumes it. -/
structure BreakoutAnalysis where
  symbol : String
  is_breakout : Bool
  confidence : ℚ
deriving Repr, DecidableEq

/-- Model of the indicator dictionary consumed by
`LLMBreakoutService._fallback_analysis` (`llm_service.py` lines 216-290).
A field is `some v` exactly when the key is present with a non-`None` value;
the code only ever tests `indicators.get(k) is not None` /
`k in indicators and indicators[k] is not None`, so absent key and `None`
value coincide. -/
structure Indicators where
  rsi : Option ℚ := none
  macd : Option ℚ := none
  macd_signal : Option ℚ := none
  sma_20 : Option ℚ := none
  sma_50 : Option ℚ := none
  bollinger_upper : Option ℚ := none
  bollinger_lower : Option ℚ := none
  bollinger_middle : Option ℚ := none
  obv : Option ℚ := none
deriving Repr, DecidableEq

/-- The "RSI Analysis" block of `_fallback_analysis` (`llm_service.py` lines
231-242), acting on the running `(score, max_score)` accumulator. -/
def rsi_block (ind : Indicators) (acc : ℚ × ℕ) : ℚ × ℕ :=
  match ind.rsi with
  | some rsi =>
    if 30 < rsi ∧ rsi < 70 then (acc.1 + 1/2, acc.2 + 1)
    else if rsi < 30 then (acc.1 + 1, acc.2 + 1)
    else (acc.1, acc.2 + 1)
  | none => acc

/-- The "MACD Analysis" block (`llm_service.py` lines 244-255). -/
def macd_block (ind : Indicators) (acc : ℚ × ℕ) : ℚ × ℕ :=
  match ind.macd, ind.macd_signal with
  | some macd, some signal =>
    if macd > signal ∧ macd > 0 then (acc.1 + 1, acc.2 + 1)
    else if macd > signal then (acc.1 + 1/2, acc.2 + 1)
    else (acc.1, acc.2 + 1)
  | _, _ => acc

/-- The "Moving Average Analysis" block (`llm_service.py` lines 257-262). -/
def sma_block (ind : Indicators) (acc : ℚ × ℕ) : ℚ × ℕ :=
  match ind.sma_20, ind.sma_50 with
  | some s20, some s50 =>
    if s20 > s50 then (acc.1 + 1, acc.2 + 1) else (acc.1, acc.2 + 1)
  | _, _ => acc

/-- The "Bollinger Bands" block (`llm_service.py` lines 264-268): descriptive
signal only, increments the denominator but never the score. -/
def bollinger_block (ind : Indicators) (acc : ℚ × ℕ) : ℚ × ℕ :=
  match ind.bollinger_upper, ind.bollinger_lower, ind.bollinger_middle with
  | some _, some _, some _ => (acc.1, acc.2 + 1)
  | _, _, _ => acc

/-- The sequential `score` / `max_score` accumulation of
`_fallback_analysis` (`llm_service.py` lines 227-272): RSI block, MACD block,
moving-average block, Bollinger block; the volume (`obv`) block appends a
signal but touches neither `score` nor `max_score`. -/
def fallback_score_max (ind : Indicators) : ℚ × ℕ :=
  bollinger_block ind (sma_block ind (macd_block ind (rsi_block ind (0, 0))))

/-- Model of `LLMBreakoutService._fallback_analysis` (`llm_service.py` lines 216-290):
`confidence = score / max_score if max_score > 0 else 0`,
`is_breakout = confidence > 0.6 and score >= 2`. -/
def fallback_analysis (symbol : String) (ind : Indicators) : BreakoutAnalysis :=
  let sm := fallback_score_max ind
  let confidence : ℚ := if 0 < sm.2 then sm.1 / (sm.2 : ℚ) else 0
  { symbol := symbol
    is_breakout := decide ((6/10 : ℚ) < confidence) && decide ((2 : ℚ) ≤ sm.1)
    confidence := confidence }

/-- The worked example of §8 "Fallback correctness":
`{rsi:25, macd:1.0, macd_signal:0.5, sma_20:110, sma_50:100}`. -/
def exampleIndicators : Indicators :=
  { rsi := some 25, macd := some 1, macd_signal := some (1/2)
    sma_20 := some 110, sma_50 := some 100 }

/-- The same mapping with `rsi` absent and the Bollinger triple present:
every scored slot except RSI contributes to the denominator. -/
def exampleNoRsi : Indicators :=
  { macd := some 1, macd_signal := some (1/2)
    sma_20 := some 110, sma_50 := some 100
    bollinger_upper := some 1, bollinger_lower := some 1
    bollinger_middle := some 1 }

lemma rsi_block_snd (ind : Indicators) (acc : ℚ × ℕ) :
    (rsi_block ind acc).2 = acc.2 + (if ind.rsi.isSome then 1 else 0) := by
  rcases h : ind.rsi with _ | v <;> simp only [rsi_block, h] <;>
    split_ifs <;> simp_all

lemma macd_block_snd (ind : Indicators) (acc : ℚ × ℕ) :
    (macd_block ind acc).2 =
      acc.2 + (if ind.macd.isSome && ind.macd_signal.isSome then 1 else 0) := by
  rcases h1 : ind.macd with _ | v1 <;> rcases h2 : ind.macd_signal with _ | v2 <;>
    simp only [macd_block, h1, h2] <;> split_ifs <;> simp_all

lemma sma_block_snd (ind : Indicators) (acc : ℚ × ℕ) :
    (sma_block ind acc).2 =
      acc.2 + (if ind.sma_20.isSome && ind.sma_50.isSome then 1 else 0) := by
  rcases h1 : ind.sma_20 with _ | v1 <;> rcases h2 : ind.sma_50 with _ | v2 <;>
    simp only [sma_block, h1, h2] <;> split_ifs <;> simp_all

lemma bollinger_block_snd (ind : Indicators) (acc : ℚ × ℕ) :
    (bollinger_block ind acc).2 =
      acc.2 + (if ind.bollinger_upper.isSome && ind.bollinger_lower.isSome
                  && ind.bollinger_middle.isSome then 1 else 0) := by
  rcases h1 : ind.bollinger_upper with _ | v1 <;>
    rcases h2 : ind.bollinger_lower with _ | v2 <;>
    rcases h3 : ind.bollinger_middle with _ | v3 <;>
    simp [bollinger_block, h1, h2, h3]

/-- The `max_score` denominator is exactly the number of present scored
indicator slots: the RSI slot, the MACD pair, the SMA pair and the Bollinger
triple each add 1 when present and are skipped entirely when absent. -/
lemma fallback_max_score_eq (ind : Indicators) :
    (fallback_score_max ind).2 =
      (if ind.rsi.isSome then 1 else 0)
      + (if ind.macd.isSome && ind.macd_signal.isSome then 1 else 0)
      + (if ind.sma_20.isSome && ind.sma_50.isSome then 1 else 0)
      + (if ind.bollinger_upper.isSome && ind.bollinger_lower.isSome
            && ind.bollinger_middle.isSome then 1 else 0) := by
  simp [fallback_score_max, bollinger_block_snd, sma_block_snd, macd_block_snd,
    rsi_block_snd, Nat.add_assoc]

/-- C5: for every indicator mapping, the fallback classifier returns
`confidence = score / maxScore` (and 0 when `maxScore` is 0) and
`isBreakout = (confidence > 0.6 AND score >= 2)`; for the worked example
`{rsi:25, macd:1.0, macd_signal:0.5, sma_20:110, sma_50:100}` it yields
`score = 3`, `maxScore = 3`, `confidence = 1`, `isBreakout = true`. -/
theorem fallback_scoring_formula_ok (sym : String) (ind : Indicators) :
    ((fallback_analysis sym ind).confidence =
      (if (fallback_score_max ind).2 = 0 then 0
       else (fallback_score_max ind).1 / ((fallback_score_max ind).2 : ℚ)))
    ∧ ((fallback_analysis sym ind).is_breakout =
        (decide ((6/10 : ℚ) < (fallback_analysis sym ind).confidence)
          && decide ((2 : ℚ) ≤ (fallback_score_max ind).1)))
    ∧ fallback_score_max exampleIndicators = (3, 3)
    ∧ fallback_analysis sym exampleIndicators =
        { symbol := sym, is_breakout := true, confidence := 1 } := by
  refine ⟨?_, rfl, ?_, ?_⟩
  · simp only [fallback_analysis]
    rcases Nat.eq_zero_or_pos (fallback_score_max ind).2 with h | h
    · simp [h]
    · simp [h, Nat.pos_iff_ne_zero.mp h]
  · norm_num [fallback_score_max, exampleIndicators, rsi_block, macd_block,
      sma_block, bollinger_block]
  · norm_num [fallback_analysis, fallback_score_max, exampleIndicators,
      rsi_block, macd_block, sma_block, bollinger_block]

/-- C6: an absent indicator is excluded from the `maxScore` denominator
entirely (the denominator is exactly the count of present scored slots);
with `rsi` absent and all other scored slots present the denominator is 3,
one less than the 4 obtained when `rsi` is additionally present. -/
theorem absent_indicator_neutrality_ok (ind : Indicators) (v : ℚ)
    (hrsi : ind.rsi = none)
    (hm : ind.macd.isSome = true) (hms : ind.macd_signal.isSome = true)
    (h20 : ind.sma_20.isSome = true) (h50 : ind.sma_50.isSome = true)
    (hbu : ind.bollinger_upper.isSome = true)
    (hbl : ind.bollinger_lower.isSome = true)
    (hbm : ind.bollinger_middle.isSome = true) :
    (∀ ind' : Indicators,
      (fallback_score_max ind').2 =
        (if ind'.rsi.isSome then 1 else 0)
        + (if ind'.macd.isSome && ind'.macd_signal.isSome then 1 else 0)
        + (if ind'.sma_20.isSome && ind'.sma_50.isSome then 1 else 0)
        + (if ind'.bollinger_upper.isSome && ind'.bollinger_lower.isSome
              && ind'.bollinger_middle.isSome then 1 else 0))
    ∧ (fallback_score_max ind).2 = 3
    ∧ (fallback_score_max { ind with rsi := some v }).2 = 4 := by
  refine ⟨fallback_max_score_eq, ?_, ?_⟩
  · simp [fallback_max_score_eq, hrsi, hm, hms, h20, h50, hbu, hbl, hbm]
  · simp [fallback_max_score_eq, hm, hms, h20, h50, hbu, hbl, hbm]

/-- Witness for C6 at a concrete mapping: `rsi` absent gives denominator 3,
adding `rsi := 25` gives 4. -/
theorem absent_indicator_neutrality_witness :
    (fallback_score_max exampleNoRsi).2 = 3
    ∧ (fallback_score_max { exampleNoRsi with rsi := some 25 }).2 = 4 := by
  have h := absent_indicator_neutrality_ok exampleNoRsi 25
    rfl rfl rfl rfl rfl rfl rfl rfl
  exact ⟨h.2.1, h.2.2⟩

/-! ## Store gateway and radar queue

`app/services/redis_service.py` and `app/services/radar_queue.py`.

The radar is two Redis structures: the ordered entry list under
`REDIS_RADAR_QUEUE_KEY` (written with `rpush`, read with `lrange`) and the
membership set `"stocks:radar:set"` (written with `sadd` / `srem`, read with
`sismember`).  A Redis set is modelled as a `Finset String`.  Redis itself is
assumed reachable: the `try/except` wrappers around each operation only fire
on infrastructure faults, which are outside the state model. -/

/-- The `radar_data` dictionary built by `RadarQueueService.add_stock_to_radar`
(`radar_queue.py` lines 52-58); `RedisService.add_to_radar` appends it (JSON
encoded, wrapped with the symbol) to the radar entry list. -/
structure RadarEntry where
  symbol : String
  added_at : String
  breakout_analysis : BreakoutAnalysis
  last_price : Option ℚ
deriving Repr, DecidableEq

/-- The `stock_data` dictionary persisted by
`StockScreenerOrchestrator.screen_single_stock` (lines 131-138). -/
structure StoredResult where
  symbol : String
  indicators : Indicators
  latest_price : ℚ
  breakout_analysis : BreakoutAnalysis
  data_length : ℕ
deriving Repr, DecidableEq

/-- The Redis keys the radar and the screening pipeline touch. -/
structure RedisState where
  radarList : List RadarEntry
  radarSet : Finset String
  stockData : List (String × StoredResult)
deriving DecidableEq

def emptyRedis : RedisState := ⟨[], ∅, []⟩

/-- Model of `RedisService.is_in_radar` (`redis_service.py` lines 153-167):
`sismember("stocks:radar:set", symbol)`. -/
def is_in_radar (st : RedisState) (symbol : String) : Bool :=
  decide (symbol ∈ st.radarSet)

/-- Model of `RedisService.add_to_radar` (`redis_service.py` lines 114-137): `rpush`
the entry onto the radar list, `sadd` the symbol into the membership set,
return `True`. -/
def add_to_radar (st : RedisState) (symbol : String) (entry : RadarEntry) :
    Bool × RedisState :=
  (true, { st with radarList := st.radarList ++ [entry]
                   radarSet := insert symbol st.radarSet })

/-- Model of `RedisService.remove_from_radar` (`redis_service.py` lines 169-188):
`srem` from the membership set only — the list entry is deliberately left in
place ("Removing from list requires scanning ... we'll just remove from the
set") — and return `True`. -/
def remove_from_radar (st : RedisState) (symbol : String) : Bool × RedisState :=
  (true, { st with radarSet := st.radarSet.erase symbol })

/-- Model of `RedisService.store_stock_data` (`redis_service.py` lines 75-93):
`set` with overwrite semantics on the per-symbol key. -/
def store_stock_data (st : RedisState) (symbol : String) (d : StoredResult) :
    Bool × RedisState :=
  (true, { st with
    stockData := (st.stockData.filter (fun p => p.1 ≠ symbol)) ++ [(symbol, d)] })

/-- Model of `RadarQueueService.add_stock_to_radar` (`radar_queue.py` lines 29-72):
membership is checked first; when present the call returns `False` without
mutation, otherwise the entry is appended and membership marked. -/
def add_stock_to_radar (st : RedisState) (symbol : String)
    (breakout_analysis : BreakoutAnalysis) (last_price : Option ℚ)
    (added_at : String) : Bool × RedisState :=
  if is_in_radar st symbol then (false, st)
  else add_to_radar st symbol
    { symbol := symbol, added_at := added_at
      breakout_analysis := breakout_analysis, last_price := last_price }

/-- Model of `RadarQueueService.remove_stock_from_radar` (`radar_queue.py` lines
90-112). -/
def remove_stock_from_radar (st : RedisState) (symbol : String) :
    Bool × RedisState :=
  remove_from_radar st symbol

/-- Model of `RadarQueueService.get_radar_count` (`radar_queue.py` lines 130-142):
the length of the entry list returned by `get_radar_stocks`. -/
def get_radar_count (st : RedisState) : ℕ :=
  st.radarList.length

/-- Model of `RadarQueueService.clear_radar` (`radar_queue.py` lines 144-159): logs a
warning and returns `True`; no store operation is issued. -/
def clear_radar (st : RedisState) : Bool × RedisState :=
  (true, st)

/-- A call against the radar queue service, for the dedup-invariant claim. -/
inductive RadarOp where
  | add (symbol : String) (analysis : BreakoutAnalysis)
      (last_price : Option ℚ) (added_at : String)
  | remove (symbol : String)
deriving Repr, DecidableEq

def RadarOp.apply (st : RedisState) : RadarOp → RedisState
  | .add s a p t => (add_stock_to_radar st s a p t).2
  | .remove s => (remove_stock_from_radar st s).2

/-- The boolean the service call returns (`True` iff an `add` inserted;
`remove` always reports `True`). -/
def RadarOp.succeeds (st : RedisState) : RadarOp → Bool
  | .add s a p t => (add_stock_to_radar st s a p t).1
  | .remove s => (remove_stock_from_radar st s).1

def RadarOp.isAdd (s : String) : RadarOp → Bool
  | .add t _ _ _ => t == s
  | .remove _ => false

def RadarOp.isRemove (s : String) : RadarOp → Bool
  | .add _ _ _ _ => false
  | .remove t => t == s

/-- Running a sequence of radar queue calls. -/
def runRadar (st : RedisState) (ops : List RadarOp) : RedisState :=
  ops.foldl RadarOp.apply st


lemma runRadar_snoc (st : RedisState) (ops : List RadarOp) (x : RadarOp) :
    runRadar st (ops ++ [x]) = x.apply (runRadar st ops) := by
  simp [runRadar, List.foldl_append]

lemma is_in_radar_iff (st : RedisState) (s : String) :
    is_in_radar st s = true ↔ s ∈ st.radarSet := by
  simp [is_in_radar]

lemma mem_after_add (st : RedisState) (t : String) (a : BreakoutAnalysis)
    (p : Option ℚ) (u : String) (s : String) :
    is_in_radar ((RadarOp.add t a p u).apply st) s = true ↔
      (t = s ∨ is_in_radar st s = true) := by
  simp only [RadarOp.apply, add_stock_to_radar]
  by_cases hm : is_in_radar st t = true
  · rw [if_pos hm]
    constructor
    · exact Or.inr
    · rintro (rfl | h)
      · exact hm
      · exact h
  · rw [if_neg hm]
    simp only [add_to_radar, is_in_radar_iff, Finset.mem_insert]
    constructor
    · rintro (rfl | h)
      · exact Or.inl rfl
      · exact Or.inr h
    · rintro (rfl | h)
      · exact Or.inl rfl
      · exact Or.inr h

lemma mem_after_remove (st : RedisState) (t s : String) :
    is_in_radar ((RadarOp.remove t).apply st) s = true ↔
      (t ≠ s ∧ is_in_radar st s = true) := by
  simp only [RadarOp.apply, remove_stock_from_radar, remove_from_radar]
  rw [is_in_radar_iff]
  simp only [Finset.mem_erase, is_in_radar_iff]
  constructor
  · rintro ⟨h1, h2⟩
    exact ⟨fun h => h1 h.symm, h2⟩
  · rintro ⟨h1, h2⟩
    exact ⟨fun h => h1 h.symm, h2⟩

lemma succeeds_add (st : RedisState) (t : String) (a : BreakoutAnalysis)
    (p : Option ℚ) (u : String) :
    (RadarOp.add t a p u).succeeds st = !(is_in_radar st t) := by
  by_cases h : is_in_radar st t <;>
    simp [RadarOp.succeeds, add_stock_to_radar, add_to_radar, h]

lemma snoc_eq_append_cons {α : Type} {ops l₁ l₂ : List α} {x op : α} :
    ops ++ [x] = l₁ ++ op :: l₂ ↔
      (l₁ = ops ∧ op = x ∧ l₂ = []) ∨
      ∃ l₂', l₂ = l₂' ++ [x] ∧ ops = l₁ ++ op :: l₂' := by
  constructor
  · intro h
    rcases l₂.eq_nil_or_concat with rfl | ⟨l₂', y, rfl⟩
    · obtain ⟨h1, h2⟩ := List.append_inj' h (by simp)
      exact Or.inl ⟨h1.symm, by simpa using h2.symm, rfl⟩
    · right
      simp only [List.concat_eq_append] at h ⊢
      rw [show l₁ ++ op :: (l₂' ++ [y]) = (l₁ ++ op :: l₂') ++ [y] by simp] at h
      obtain ⟨h1, h2⟩ := List.append_inj' h (by simp)
      obtain rfl : x = y := by simpa using h2
      exact ⟨l₂', rfl, h1⟩
  · rintro (⟨rfl, rfl, rfl⟩ | ⟨l₂', rfl, rfl⟩) <;> simp

lemma radar_membership_iff (ops : List RadarOp) (s : String) :
    is_in_radar (runRadar emptyRedis ops) s = true ↔
      ∃ l₁ op l₂, ops = l₁ ++ op :: l₂ ∧ op.isAdd s = true ∧
        op.succeeds (runRadar emptyRedis l₁) = true ∧
        ∀ op' ∈ l₂, op'.isRemove s = false := by
  induction ops using List.reverseRecOn with
  | nil =>
    constructor
    · intro h
      simp [runRadar, is_in_radar, emptyRedis] at h
    · rintro ⟨l₁, op, l₂, h, -⟩
      exact absurd h (by simp)
  | append_singleton ops x ih =>
    rw [runRadar_snoc]
    cases x with
    | add t a p u =>
      rw [mem_after_add]
      by_cases hts : t = s
      · subst hts
        constructor
        · intro _
          by_cases hmem : is_in_radar (runRadar emptyRedis ops) t = true
          · obtain ⟨l₁, op, l₂, rfl, hadd, hsucc, hnorem⟩ := ih.mp hmem
            refine ⟨l₁, op, l₂ ++ [RadarOp.add t a p u], by simp, hadd, hsucc, ?_⟩
            intro op' hop'
            rcases List.mem_append.mp hop' with h | h
            · exact hnorem _ h
            · simp only [List.mem_singleton] at h
              subst h; rfl
          · refine ⟨ops, RadarOp.add t a p u, [], rfl, by simp [RadarOp.isAdd], ?_, by simp⟩
            rw [succeeds_add]
            simp [hmem]
        · intro _
          exact Or.inl rfl
      · have hiff : (t = s ∨ is_in_radar (runRadar emptyRedis ops) s = true) ↔
            is_in_radar (runRadar emptyRedis ops) s = true := by tauto
        rw [hiff, ih]
        constructor
        · rintro ⟨l₁, op, l₂, rfl, hadd, hsucc, hnorem⟩
          refine ⟨l₁, op, l₂ ++ [RadarOp.add t a p u], by simp, hadd, hsucc, ?_⟩
          intro op' hop'
          rcases List.mem_append.mp hop' with h | h
          · exact hnorem _ h
          · simp only [List.mem_singleton] at h
            subst h; rfl
        · rintro ⟨l₁, op, l₂, hsplit, hadd, hsucc, hnorem⟩
          rcases snoc_eq_append_cons.mp hsplit with ⟨rfl, rfl, rfl⟩ | ⟨l₂', rfl, rfl⟩
          · simp only [RadarOp.isAdd, beq_iff_eq] at hadd
            exact absurd hadd hts
          · refine ⟨l₁, op, l₂', rfl, hadd, hsucc, ?_⟩
            intro op' h
            exact hnorem _ (List.mem_append.mpr (Or.inl h))
    | remove t =>
      rw [mem_after_remove]
      by_cases hts : t = s
      · subst hts
        constructor
        · rintro ⟨h, -⟩
          exact absurd rfl h
        · rintro ⟨l₁, op, l₂, hsplit, hadd, hsucc, hnorem⟩
          rcases snoc_eq_append_cons.mp hsplit with ⟨rfl, rfl, rfl⟩ | ⟨l₂', rfl, rfl⟩
          · simp [RadarOp.isAdd] at hadd
          · have := hnorem (RadarOp.remove t) (by simp)
            simp [RadarOp.isRemove] at this
      · constructor
        · rintro ⟨-, hmem⟩
          obtain ⟨l₁, op, l₂, rfl, hadd, hsucc, hnorem⟩ := ih.mp hmem
          refine ⟨l₁, op, l₂ ++ [RadarOp.remove t], by simp, hadd, hsucc, ?_⟩
          intro op' hop'
          rcases List.mem_append.mp hop' with h | h
          · exact hnorem _ h
          · simp only [List.mem_singleton] at h
            subst h
            simp [RadarOp.isRemove]
            exact hts
        · rintro ⟨l₁, op, l₂, hsplit, hadd, hsucc, hnorem⟩
          refine ⟨hts, ?_⟩
          rcases snoc_eq_append_cons.mp hsplit with ⟨rfl, rfl, rfl⟩ | ⟨l₂', rfl, rfl⟩
          · simp [RadarOp.isAdd] at hadd
          · exact ih.mpr ⟨l₁, op, l₂', rfl, hadd, hsucc,
              fun op' h => hnorem _ (List.mem_append.mpr (Or.inl h))⟩



/-- C1: for every sequence of radar queue `add`/`remove` calls from the empty
radar, `contains(s)` is true iff some `add` for `s` succeeded (returned
`True`) and no later `remove` of `s` occurs; and after `add(A)` followed by
`add(A)` the second add returns `False` without mutating the state,
`contains(A)` is true and `count()` is 1. -/
theorem radar_dedup_invariant_ok (ops : List RadarOp) (s : String)
    (A : String) (a : BreakoutAnalysis) (p : Option ℚ) (t u : String) :
    (is_in_radar (runRadar emptyRedis ops) s = true ↔
      ∃ l₁ op l₂, ops = l₁ ++ op :: l₂ ∧ op.isAdd s = true ∧
        op.succeeds (runRadar emptyRedis l₁) = true ∧
        ∀ op' ∈ l₂, op'.isRemove s = false)
    ∧ (add_stock_to_radar (add_stock_to_radar emptyRedis A a p t).2 A a p u).1
        = false
    ∧ (add_stock_to_radar (add_stock_to_radar emptyRedis A a p t).2 A a p u).2
        = (add_stock_to_radar emptyRedis A a p t).2
    ∧ is_in_radar (add_stock_to_radar emptyRedis A a p t).2 A = true
    ∧ get_radar_count (add_stock_to_radar emptyRedis A a p t).2 = 1 := by
  refine ⟨radar_membership_iff ops s, ?_, ?_, ?_, ?_⟩ <;>
    simp [add_stock_to_radar, add_to_radar, is_in_radar, emptyRedis,
      get_radar_count]

/-- C10: `clear_radar` reports success while leaving the radar membership set
and entry list untouched: it returns `(True, unchanged state)`, and
`contains` / `count` give the same answers before and after. -/
theorem clear_radar_noop (st : RedisState) (s : String) :
    clear_radar st = (true, st)
    ∧ is_in_radar (clear_radar st).2 s = is_in_radar st s
    ∧ get_radar_count (clear_radar st).2 = get_radar_count st :=
  ⟨rfl, rfl, rfl⟩

/-! ## Screening orchestrator — per-symbol pipeline

`StockScreenerOrchestrator.screen_single_stock`
(`screener_orchestrator.py` lines 85-167).  The pipeline's external inputs
are passed as arguments:

* `fetch` — the `Close` column of `yfinance.get_historical_data`'s result
  (`none` models a `None` return, `some []` an empty frame);
* `indicators` — the result of
  `TechnicalIndicatorService.calculate_all_indicators` (`none` models the
  falsy `None`/empty result the code tests with `if not indicators`);
* `analyze` — `LLMBreakoutService.analyze_breakout` partially applied to its
  non-indicator inputs;
* `added_at` — the `datetime.utcnow()` reading taken inside
  `add_stock_to_radar`.

The returned `Bool` instruments whether the classifier was invoked. -/

inductive ScreenOutcome where
  | success (symbol : String) (latest_price : ℚ) (analysis : BreakoutAnalysis)
      (added_to_radar : Bool)
  | no_data (symbol : String)
  | error (symbol : String)
deriving Repr, DecidableEq

/-- The `added_to_radar` entry of a success dictionary. -/
def ScreenOutcome.addedFlag : ScreenOutcome → Option Bool
  | .success _ _ _ a => some a
  | _ => none

/-- Model of `screen_single_stock` (`screener_orchestrator.py` lines 85-167).  Note
line 144: the boolean returned by `add_stock_to_radar` is discarded, and
line 158 recomputes `added_to_radar` from the threshold test alone. -/
def screen_single_stock (symbol : String) (fetch : Option (List ℚ))
    (indicators : Option Indicators) (analyze : Indicators → BreakoutAnalysis)
    (added_at : String) (st : RedisState) :
    ScreenOutcome × RedisState × Bool :=
  match fetch with
  | none => (.no_data symbol, st, false)
  | some [] => (.no_data symbol, st, false)
  | some (c0 :: cs) =>
    match indicators with
    | none => (.error symbol, st, false)
    | some ind =>
      let latest_price := (c0 :: cs).getLast (List.cons_ne_nil c0 cs)
      let breakout_analysis := analyze ind
      let st1 := (store_stock_data st symbol
        { symbol := symbol, indicators := ind, latest_price := latest_price
          breakout_analysis := breakout_analysis
          data_length := (c0 :: cs).length }).2
      let add_flag := breakout_analysis.is_breakout
        && decide ((6/10 : ℚ) < breakout_analysis.confidence)
      let st2 := if add_flag then
          (add_stock_to_radar st1 symbol breakout_analysis (some latest_price)
            added_at).2
        else st1
      (.success symbol latest_price breakout_analysis add_flag, st2, true)

/-! ## Screening orchestrator — full-universe run

`StockScreenerOrchestrator.screen_all_stocks`
(`screener_orchestrator.py` lines 169-249).  Each task of the
`asyncio.gather(..., return_exceptions=True)` fan-out yields either an
exception object or a per-symbol outcome dictionary; `screen` maps each
symbol to its task's result. -/

inductive SymResult where
  | exn
  | res (o : ScreenOutcome)
deriving Repr, DecidableEq

/-- The `results` counter dictionary (`screener_orchestrator.py` lines
193-199). -/
structure Counters where
  total : ℕ
  processed : ℕ
  breakouts : ℕ
  errors : ℕ
  no_data : ℕ
deriving Repr, DecidableEq

/-- One iteration of the result-folding loop (`screener_orchestrator.py`
lines 222-235). -/
def tally (acc : Counters) (r : SymResult) : Counters :=
  match r with
  | .exn => { acc with errors := acc.errors + 1 }
  | .res o =>
    let acc := { acc with processed := acc.processed + 1 }
    match o with
    | .success _ _ _ added =>
      if added then { acc with breakouts := acc.breakouts + 1 } else acc
    | .no_data _ => { acc with no_data := acc.no_data + 1 }
    | .error _ => { acc with errors := acc.errors + 1 }

inductive AllOutcome where
  | error (msg : String)
  | success (c : Counters)
deriving Repr, DecidableEq

/-- Model of `screen_all_stocks` (`screener_orchestrator.py` lines 169-249): error out
on an empty universe before any screening, otherwise fold every per-task
result into the counters and return success. -/
def screen_all_stocks (stocks : List String)
    (screen : String → SymResult) : AllOutcome :=
  if stocks.isEmpty then
    .error "No stocks in Redis. Run initialize_stock_list first."
  else
    .success ((stocks.map screen).foldl tally
      { total := stocks.length, processed := 0, breakouts := 0, errors := 0
        no_data := 0 })

def SymResult.isProcessed : SymResult → Bool
  | .exn => false
  | .res _ => true

def SymResult.isBreakoutCounted : SymResult → Bool
  | .res (.success _ _ _ true) => true
  | _ => false

def SymResult.isErrorCounted : SymResult → Bool
  | .exn => true
  | .res (.error _) => true
  | _ => false

def SymResult.isNoData : SymResult → Bool
  | .res (.no_data _) => true
  | _ => false


lemma tally_foldl (rs : List SymResult) (acc : Counters) :
    rs.foldl tally acc =
      { total := acc.total
        processed := acc.processed + rs.countP SymResult.isProcessed
        breakouts := acc.breakouts + rs.countP SymResult.isBreakoutCounted
        errors := acc.errors + rs.countP SymResult.isErrorCounted
        no_data := acc.no_data + rs.countP SymResult.isNoData } := by
  induction rs generalizing acc with
  | nil => simp
  | cons r rs ih =>
    rw [List.foldl_cons, ih]
    cases r with
    | exn =>
      simp [tally, List.countP_cons, SymResult.isProcessed,
        SymResult.isBreakoutCounted, SymResult.isErrorCounted,
        SymResult.isNoData, Counters.mk.injEq]
      omega
    | res o =>
      cases o with
      | success s lp a added =>
        cases added <;>
          simp [tally, List.countP_cons, SymResult.isProcessed,
            SymResult.isBreakoutCounted, SymResult.isErrorCounted,
            SymResult.isNoData, Counters.mk.injEq] <;> omega
      | no_data s =>
        simp [tally, List.countP_cons, SymResult.isProcessed,
          SymResult.isBreakoutCounted, SymResult.isErrorCounted,
          SymResult.isNoData, Counters.mk.injEq]
        omega
      | error s =>
        simp [tally, List.countP_cons, SymResult.isProcessed,
          SymResult.isBreakoutCounted, SymResult.isErrorCounted,
          SymResult.isNoData, Counters.mk.injEq]
        omega

/-- C2: `screen_all_stocks` on an empty universe returns the top-level error
outcome (for every screening function, so before screening any symbol); on a
non-empty universe every per-task result — success, no-data, error outcome or
raised exception — is folded into the counters, the run itself returns
success (it never aborts), and the processed/exception counts exhaust the
universe. -/
theorem screen_all_outcome_folding (stocks : List String)
    (screen : String → SymResult) (h : stocks ≠ []) :
    (∀ f : String → SymResult,
      screen_all_stocks [] f =
        .error "No stocks in Redis. Run initialize_stock_list first.")
    ∧ screen_all_stocks stocks screen = .success
        { total := stocks.length
          processed := (stocks.map screen).countP SymResult.isProcessed
          breakouts := (stocks.map screen).countP SymResult.isBreakoutCounted
          errors := (stocks.map screen).countP SymResult.isErrorCounted
          no_data := (stocks.map screen).countP SymResult.isNoData }
    ∧ (stocks.map screen).countP SymResult.isProcessed
        + (stocks.map screen).countP (fun r => ¬SymResult.isProcessed r)
        = stocks.length := by
  refine ⟨fun f => rfl, ?_, ?_⟩
  · rw [screen_all_stocks, if_neg (by simp [h]), tally_foldl]
    simp
  · have hlen := List.length_eq_countP_add_countP
      SymResult.isProcessed (stocks.map screen)
    simp only [List.length_map] at hlen
    exact hlen.symm



/-- A concrete screening function: "A" succeeds with a counted breakout,
"B" raises, anything else has no data. -/
def cexScreen : String → SymResult := fun s =>
  if s = "A" then .res (.success "A" 100 ⟨"A", true, 1⟩ true)
  else if s = "B" then .exn
  else .res (.no_data s)

/-- Witness for C2 at a concrete three-symbol universe. -/
theorem screen_all_outcome_folding_witness :
    (["A", "B", "C"] : List String) ≠ []
    ∧ screen_all_stocks ["A", "B", "C"] cexScreen = .success
        { total := 3, processed := 2, breakouts := 1, errors := 1
          no_data := 1 } := by
  refine ⟨by simp, ?_⟩
  have h := (screen_all_outcome_folding ["A", "B", "C"] cexScreen
    (by simp)).2.1
  rw [h]
  rfl

/-- C9: when the price-history fetch returns `None` or an empty frame,
`screen_single_stock` returns the terminal no-data outcome, leaves the store
and the radar untouched, and never invokes the classifier. -/
theorem no_data_short_circuit (symbol : String) (fetch : Option (List ℚ))
    (indicators : Option Indicators) (analyze : Indicators → BreakoutAnalysis)
    (added_at : String) (st : RedisState)
    (h : fetch = none ∨ fetch = some []) :
    screen_single_stock symbol fetch indicators analyze added_at st
      = (.no_data symbol, st, false) := by
  rcases h with rfl | rfl <;> rfl

/-- Witness for C9 at symbol "ZZZZ" with an empty price series. -/
theorem no_data_short_circuit_witness :
    screen_single_stock "ZZZZ" (some []) (some exampleIndicators)
        (fallback_analysis "ZZZZ") "t0" emptyRedis
      = (.no_data "ZZZZ", emptyRedis, false) :=
  no_data_short_circuit "ZZZZ" (some []) (some exampleIndicators)
    (fallback_analysis "ZZZZ") "t0" emptyRedis (Or.inr rfl)

/-- A radar state already tracking "TCS". -/
def radarWithTCS : RedisState :=
  (add_stock_to_radar emptyRedis "TCS" ⟨"TCS", true, 1⟩ (some 95) "t0").2

/-- A classifier stub returning a maximal-confidence breakout verdict. -/
def strongVerdict : Indicators → BreakoutAnalysis := fun _ => ⟨"TCS", true, 1⟩

/-- C8 counterexample: with symbol "TCS" already on the radar and a
high-confidence breakout verdict, the success outcome reports
`added_to_radar = true` although the radar add inserted nothing (both the
entry list and the membership set are unchanged) — refuting "the boolean is
true iff the add actually inserted a new entry". -/
theorem added_flag_not_insertion_cex :
    ((screen_single_stock "TCS" (some [100]) (some exampleIndicators)
        strongVerdict "t1" radarWithTCS).1).addedFlag = some true
    ∧ (screen_single_stock "TCS" (some [100]) (some exampleIndicators)
        strongVerdict "t1" radarWithTCS).2.1.radarList = radarWithTCS.radarList
    ∧ (screen_single_stock "TCS" (some [100]) (some exampleIndicators)
        strongVerdict "t1" radarWithTCS).2.1.radarSet = radarWithTCS.radarSet
    ∧ is_in_radar radarWithTCS "TCS" = true := by
  have hmem : is_in_radar radarWithTCS "TCS" = true := by
    simp [radarWithTCS, add_stock_to_radar, add_to_radar, is_in_radar,
      emptyRedis]
  have hconf : ((6 : ℚ)/10 < 1) := by norm_num
  refine ⟨?_, ?_, ?_, hmem⟩ <;>
    simp [screen_single_stock, strongVerdict, ScreenOutcome.addedFlag,
      store_stock_data, add_stock_to_radar, is_in_radar, radarWithTCS,
      add_to_radar, emptyRedis, hconf]

lemma screen_single_stock_cons (symbol : String) (c0 : ℚ) (cs : List ℚ)
    (ind : Indicators) (analyze : Indicators → BreakoutAnalysis)
    (added_at : String) (st : RedisState) :
    screen_single_stock symbol (some (c0 :: cs)) (some ind) analyze added_at st
      = (.success symbol ((c0 :: cs).getLast (List.cons_ne_nil c0 cs))
          (analyze ind)
          ((analyze ind).is_breakout
            && decide ((6/10 : ℚ) < (analyze ind).confidence)),
        (if (analyze ind).is_breakout
            && decide ((6/10 : ℚ) < (analyze ind).confidence) then
          (add_stock_to_radar (store_stock_data st symbol
            { symbol := symbol, indicators := ind
              latest_price := (c0 :: cs).getLast (List.cons_ne_nil c0 cs)
              breakout_analysis := analyze ind
              data_length := (c0 :: cs).length }).2 symbol (analyze ind)
            (some ((c0 :: cs).getLast (List.cons_ne_nil c0 cs))) added_at).2
        else (store_stock_data st symbol
            { symbol := symbol, indicators := ind
              latest_price := (c0 :: cs).getLast (List.cons_ne_nil c0 cs)
              breakout_analysis := analyze ind
              data_length := (c0 :: cs).length }).2),
        true) := rfl

/-- C8 amended: in every successful `screen_single_stock` run the
`added_to_radar` boolean equals the threshold test
`is_breakout AND confidence > 0.6` — it records that an add was attempted,
not that it inserted; when the symbol is already present the radar is
unchanged even though the flag may be true. -/
theorem added_flag_is_threshold (symbol : String) (c0 : ℚ) (cs : List ℚ)
    (ind : Indicators) (analyze : Indicators → BreakoutAnalysis)
    (added_at : String) (st : RedisState) :
    ((screen_single_stock symbol (some (c0 :: cs)) (some ind) analyze added_at
        st).1).addedFlag
      = some ((analyze ind).is_breakout
          && decide ((6/10 : ℚ) < (analyze ind).confidence))
    ∧ (is_in_radar st symbol = true →
        (screen_single_stock symbol (some (c0 :: cs)) (some ind) analyze
            added_at st).2.1.radarList = st.radarList
        ∧ (screen_single_stock symbol (some (c0 :: cs)) (some ind) analyze
            added_at st).2.1.radarSet = st.radarSet) := by
  constructor
  · rfl
  · intro hmem
    rw [screen_single_stock_cons]
    by_cases hf : ((analyze ind).is_breakout
        && decide ((6/10 : ℚ) < (analyze ind).confidence)) = true
    · have hmem1 : is_in_radar (store_stock_data st symbol
          { symbol := symbol, indicators := ind
            latest_price := (c0 :: cs).getLast (List.cons_ne_nil c0 cs)
            breakout_analysis := analyze ind
            data_length := (c0 :: cs).length }).2 symbol = true := hmem
      simp only [hf, if_true]
      rw [add_stock_to_radar, if_pos hmem1]
      exact ⟨rfl, rfl⟩
    · simp only [Bool.not_eq_true] at hf
      simp only [hf, Bool.false_eq_true, if_false]
      exact ⟨rfl, rfl⟩

/-- Witness for C8 (amended) at the already-tracked "TCS" state. -/
theorem added_flag_is_threshold_witness :
    ((screen_single_stock "TCS" (some [100]) (some exampleIndicators)
        strongVerdict "t1" radarWithTCS).1).addedFlag = some true
    ∧ (screen_single_stock "TCS" (some [100]) (some exampleIndicators)
        strongVerdict "t1" radarWithTCS).2.1.radarSet
      = radarWithTCS.radarSet := by
  have h := added_flag_is_threshold "TCS" 100 [] exampleIndicators
    strongVerdict "t1" radarWithTCS
  have hmem : is_in_radar radarWithTCS "TCS" = true := by
    simp [radarWithTCS, add_stock_to_radar, add_to_radar, is_in_radar,
      emptyRedis]
  refine ⟨?_, (h.2 hmem).2⟩
  rw [h.1]
  norm_num [strongVerdict]


/-! ## Classifier — remote path parsing

`LLMBreakoutService.analyze_breakout` / `_parse_llm_response`
(`llm_service.py` lines 26-60 and 168-214).  Raw text is `List Char`;
`pyStrip`, `pyLower`, `pyFind`, `pySlice` model the Python `str` methods
`strip`, `lower`, `find` (with `-1` for "not found") and slicing with a
possibly negative end index.  `json.loads` is an external library call,
passed in as a `loads` argument returning `none` where the real parser
raises `json.JSONDecodeError`. -/

/-- A parsed JSON value as produced by `json.loads`. -/
inductive Json where
  | null
  | bool (b : Bool)
  | num (q : ℚ)
  | str (s : String)
  | arr (elems : List Json)
  | obj (entries : List (String × Json))
deriving Repr

/-- Whether the decoded value is a JSON object (a Python `dict`). -/
def Json.isObj : Json → Bool
  | .obj _ => true
  | _ => false

/-- Python `str.strip()`. -/
def pyStrip (l : List Char) : List Char :=
  ((l.dropWhile Char.isWhitespace).reverse.dropWhile Char.isWhitespace).reverse

/-- Python `str.lower()`. -/
def pyLower (l : List Char) : List Char := l.map Char.toLower

/-- Whether the first list is an initial segment of the second. -/
def leadsList : List Char → List Char → Bool
  | [], _ => true
  | _ :: _, [] => false
  | a :: as, b :: bs => a == b && leadsList as bs

/-- Index of the first occurrence of `needle`, if any. -/
def subFind (needle : List Char) : List Char → Option ℕ
  | [] => if leadsList needle [] then some 0 else none
  | c :: tl =>
    if leadsList needle (c :: tl) then some 0
    else (subFind needle tl).map (· + 1)

/-- Python `needle in hay`. -/
def containsSub (hay needle : List Char) : Bool := (subFind needle hay).isSome

/-- Python `hay.find(needle, start)`: absolute index, `-1` when absent. -/
def pyFind (hay needle : List Char) (start : ℕ) : Int :=
  match subFind needle (hay.drop start) with
  | some i => ((start + i : ℕ) : Int)
  | none => -1

/-- Python `l[a:b]` where `b` may be negative (counting from the end). -/
def pySlice (l : List Char) (a : ℕ) (b : Int) : List Char :=
  let b' : Int := if b < 0 then (l.length : Int) + b else b
  (l.take b'.toNat).drop a

/-- The markdown-fence stripping of `_parse_llm_response` (`llm_service.py`
lines 182-190), applied after the initial `strip()`. -/
def stripCodeFence (r : List Char) : List Char :=
  if containsSub r "```json".data then
    let s := (pyFind r "```json".data 0).toNat + 7
    let e := pyFind r "```".data s
    pyStrip (pySlice r s e)
  else if containsSub r "```".data then
    let s := (pyFind r "```".data 0).toNat + 3
    let e := pyFind r "```".data s
    pyStrip (pySlice r s e)
  else r

/-- Python truthiness of a decoded JSON value, as applied to the stored
`is_breakout` entry by its consumers. -/
def pyTruthy : Json → Bool
  | .null => false
  | .bool b => b
  | .num q => decide (q ≠ 0)
  | .str s => decide (s ≠ "")
  | .arr elems => !elems.isEmpty
  | .obj entries => !entries.isEmpty

/-- Python `dict.get(k, dflt)` on a decoded JSON object; for duplicate keys
`json.loads` keeps the last occurrence. -/
def jsonGetD (entries : List (String × Json)) (k : String) (dflt : Json) : Json :=
  (entries.reverse.lookup k).getD dflt

/-- Model of `data.get('confidence', 0) / 100.0` (`llm_service.py` line 198): numbers
and booleans divide (Python `bool` is an `int`); any other type raises
`TypeError`, modelled as `none`. -/
def confDiv100 : Json → Option ℚ
  | .num q => some (q / 100)
  | .bool b => some ((if b then 1 else 0) / 100)
  | _ => none

/-- The `except json.JSONDecodeError` branch of `_parse_llm_response`
(`llm_service.py` lines 203-214): a text heuristic on the (stripped)
response, `confidence = 0.5`; the modelled fields of the result. -/
def text_heuristic (symbol : String) (r : List Char) : BreakoutAnalysis :=
  { symbol := symbol
    is_breakout := containsSub (pyLower r) "yes".data
      || containsSub (pyLower r) "breakout".data
    confidence := 1/2 }

/-- Model of `_parse_llm_response` (`llm_service.py` lines 168-214).  `.error ()`
models an exception escaping the method: `AttributeError` when the decoded
value is not a dict (line 196 `data.get`), or `TypeError` from the
confidence division — neither is `json.JSONDecodeError`, so neither is
caught here. -/
def parse_llm_response (loads : List Char → Option Json) (symbol : String)
    (response : List Char) : Except Unit BreakoutAnalysis :=
  let r := stripCodeFence (pyStrip response)
  match loads r with
  | none => .ok (text_heuristic symbol r)
  | some (.obj entries) =>
    match confDiv100 (jsonGetD entries "confidence" (.num 0)) with
    | some c =>
      .ok { symbol := symbol
            is_breakout := pyTruthy (jsonGetD entries "is_breakout" (.bool false))
            confidence := c }
    | none => .error ()
  | some _ => .error ()

/-- Model of `analyze_breakout` (`llm_service.py` lines 26-60): `api_response` is the
result of `_call_llm_api` (`none` for missing credential, transport failure
or non-200; note line 50 `if response:` also treats an empty string as
falsy).  Any exception from parsing degrades to the rule-based fallback. -/
def analyze_breakout (loads : List Char → Option Json) (symbol : String)
    (ind : Indicators) (api_response : Option (List Char)) : BreakoutAnalysis :=
  match api_response with
  | some r =>
    if r.isEmpty then fallback_analysis symbol ind
    else
      match parse_llm_response loads symbol r with
      | .ok a => a
      | .error _ => fallback_analysis symbol ind
  | none => fallback_analysis symbol ind

/-- A decoder that fails on every input; it agrees with `json.loads` on the
non-JSON probe texts used below. -/
def cexLoads : List Char → Option Json := fun _ => none



/-- C7 counterexample: for the unparseable response `"not json"` the
classifier returns the text-heuristic verdict (`confidence = 0.5`,
`is_breakout = false`), not the rule-based fallback verdict computed from
the indicators (`confidence = 1`, `is_breakout = true`) — refuting "the
malformed path is always routed to the fallback scorer". -/
theorem llm_malformed_not_fallback_cex :
    analyze_breakout cexLoads "TCS" exampleIndicators (some "not json".data)
      = { symbol := "TCS", is_breakout := false, confidence := 1/2 }
    ∧ fallback_analysis "TCS" exampleIndicators
      = { symbol := "TCS", is_breakout := true, confidence := 1 }
    ∧ analyze_breakout cexLoads "TCS" exampleIndicators (some "not json".data)
      ≠ fallback_analysis "TCS" exampleIndicators := by
  have hA : analyze_breakout cexLoads "TCS" exampleIndicators
      (some "not json".data)
      = { symbol := "TCS", is_breakout := false, confidence := 1/2 } := by
    have h1 : containsSub (pyLower "not json".data) "yes".data = false := by
      decide
    have h2 : containsSub (pyLower "not json".data) "breakout".data = false := by
      decide
    have h3 : containsSub "not json".data "```json".data = false := by decide
    have h4 : containsSub "not json".data "```".data = false := by decide
    have h5 : pyStrip "not json".data = "not json".data := by decide
    simp [analyze_breakout, parse_llm_response, stripCodeFence, h3, h4, h5,
      cexLoads, text_heuristic, h1, h2]
  have hB : fallback_analysis "TCS" exampleIndicators
      = { symbol := "TCS", is_breakout := true, confidence := 1 } := by
    norm_num [fallback_analysis, fallback_score_max, exampleIndicators,
      rsi_block, macd_block, sma_block, bollinger_block]
  refine ⟨hA, hB, ?_⟩
  rw [hA, hB]
  simp

/-- C7 amended: no transport or parse failure raises past the classifier,
but the degradation is split: a missing/failed/empty remote response uses
the rule-based fallback; a response that fails JSON decoding yields the
text-heuristic verdict; a response that decodes to a non-object, or to an
object whose confidence entry is not a number or boolean, escapes as an
exception to `analyze_breakout`'s catch-all and only then degrades to the
rule-based fallback. -/
theorem llm_parse_failure_routing (loads : List Char → Option Json)
    (symbol : String) (ind : Indicators) (r : List Char) :
    (analyze_breakout loads symbol ind none = fallback_analysis symbol ind)
    ∧ (r.isEmpty = false →
        loads (stripCodeFence (pyStrip r)) = none →
        analyze_breakout loads symbol ind (some r)
          = text_heuristic symbol (stripCodeFence (pyStrip r)))
    ∧ (∀ j : Json, r.isEmpty = false →
        loads (stripCodeFence (pyStrip r)) = some j →
        j.isObj = false →
        analyze_breakout loads symbol ind (some r)
          = fallback_analysis symbol ind)
    ∧ (∀ entries : List (String × Json), r.isEmpty = false →
        loads (stripCodeFence (pyStrip r)) = some (.obj entries) →
        confDiv100 (jsonGetD entries "confidence" (.num 0)) = none →
        analyze_breakout loads symbol ind (some r)
          = fallback_analysis symbol ind) := by
  refine ⟨rfl, ?_, ?_, ?_⟩
  · intro he hl
    simp [analyze_breakout, he, parse_llm_response, hl]
  · intro j he hl hobj
    cases j <;> simp_all [analyze_breakout, parse_llm_response, Json.isObj]
  · intro entries he hl hc
    simp [analyze_breakout, he, parse_llm_response, hl, hc]

/-- Witness for C7 (amended) at the concrete response `"plain"`. -/
theorem llm_parse_failure_routing_witness :
    ("plain".data.isEmpty = false)
    ∧ cexLoads (stripCodeFence (pyStrip "plain".data)) = none
    ∧ analyze_breakout cexLoads "INFY" exampleIndicators (some "plain".data)
      = text_heuristic "INFY" (stripCodeFence (pyStrip "plain".data)) := by
  refine ⟨rfl, rfl, ?_⟩
  exact (llm_parse_failure_routing cexLoads "INFY" exampleIndicators
    "plain".data).2.1 rfl rfl


/-! ## Rate limiter

`RateLimiter.wait_if_needed` (`rate_limiter.py` lines 33-67).  Time is a
rational number of seconds; `now` is the `datetime.now()` reading taken
after acquiring the lock, and `time.sleep` is modelled as sleeping exactly
the requested duration.

The crucial modelling point: `wait_if_needed` holds the non-reentrant
`threading.Lock` (line 38) for its whole body, and the full-window path
(lines 47-54) sleeps and then calls `wait_if_needed()` recursively — the
recursive call blocks forever re-acquiring the lock the same thread already
holds.  `blocked` models a call that never returns; `lock_held` records that
the lock is owned by such a call, so every later call blocks at line 38 too.
`raises` models the `IndexError` of `request_times[0]` on an empty deque
(reachable only with `requests_per_minute = 0`); the `with` statement
releases the lock on the way out. -/

/-- How a `wait_if_needed` call ends. -/
inductive WaitResult where
  | completes (t : ℚ)
  | blocked
  | raises
deriving Repr, DecidableEq

/-- The `RateLimiter.__init__` state (`rate_limiter.py` lines 19-31) plus the
lock-ownership bit. -/
structure RateLimiter where
  requests_per_minute : ℕ
  delay_between_requests : ℚ
  request_times : List ℚ
  last_request_time : Option ℚ
  lock_held : Bool
deriving Repr, DecidableEq

/-- A freshly constructed limiter. -/
def mkLimiter (rpm : ℕ) (delay : ℚ) : RateLimiter :=
  { requests_per_minute := rpm, delay_between_requests := delay
    request_times := [], last_request_time := none, lock_held := false }

/-- Lines 42-44: pop the timestamps strictly older than one minute. -/
def pruneOld (cutoff : ℚ) (l : List ℚ) : List ℚ :=
  l.dropWhile (fun x => decide (x < cutoff))

/-- The timestamp actually recorded: lines 56-63 sleep out the minimum
inter-request spacing (re-reading the clock), otherwise the entry time. -/
def nextTime (st : RateLimiter) (now : ℚ) : ℚ :=
  match st.last_request_time with
  | some last =>
    if 0 < st.delay_between_requests ∧ now - last < st.delay_between_requests
    then last + st.delay_between_requests
    else now
  | none => now

/-- Lines 56-67: the spacing delay followed by recording the request. -/
def recordRequest (st : RateLimiter) (pruned : List ℚ) (now : ℚ) :
    WaitResult × RateLimiter :=
  (.completes (nextTime st now),
   { st with request_times := pruned ++ [nextTime st now]
             last_request_time := some (nextTime st now) })

/-- Lines 46-67 given the already-pruned window: the admission check.  When
the window is full and the oldest entry has not aged out, the code sleeps
and recurses into `wait_if_needed` while still holding the lock — the call
never returns (`blocked`) and the limiter stays locked. -/
def admitOrBlock (st : RateLimiter) (pruned : List ℚ) (now : ℚ) :
    WaitResult × RateLimiter :=
  if st.requests_per_minute ≤ pruned.length then
    match pruned with
    | [] => (.raises, { st with request_times := pruned })
    | oldest :: _ =>
      if 0 < oldest + 60 - now then
        (.blocked, { st with request_times := pruned, lock_held := true })
      else recordRequest st pruned now
  else recordRequest st pruned now

/-- Model of `wait_if_needed` (lines 33-67): acquire the lock (blocking forever if a
deadlocked call owns it), prune, admit or block. -/
def wait_if_needed (st : RateLimiter) (now : ℚ) : WaitResult × RateLimiter :=
  if st.lock_held then (.blocked, st)
  else admitOrBlock st (pruneOld (now - 60) st.request_times) now

/-- The final limiter state after a sequence of calls with the given clock
readings. -/
def runLimiter (st : RateLimiter) (calls : List ℚ) : RateLimiter :=
  calls.foldl (fun s τ => (wait_if_needed s τ).2) st

/-- The per-call results of a sequence of calls. -/
def runResults (st : RateLimiter) : List ℚ → List WaitResult
  | [] => []
  | τ :: rest =>
    (wait_if_needed st τ).1 :: runResults (wait_if_needed st τ).2 rest

/-- Number of recorded timestamps in the closed trailing window
`[t - 60, t]` — the code's own in-window notion (an entry aged exactly 60s
is retained by the strict `<` pop at line 43). -/
def windowCountClosed (t : ℚ) (l : List ℚ) : ℕ :=
  l.countP (fun x => decide (t - 60 ≤ x ∧ x ≤ t))

/-- Number of recorded timestamps in the half-open trailing window
`(t - 60, t]`. -/
def windowCountStrict (t : ℚ) (l : List ℚ) : ℕ :=
  l.countP (fun x => decide (t - 60 < x ∧ x ≤ t))

/-- A call schedule is well-formed when each lock-acquisition clock reading
is later than the previously recorded request time (the lock serializes the
bodies and the clock advances). -/
def nextOk (st : RateLimiter) (τ : ℚ) : Bool :=
  match st.last_request_time with
  | none => true
  | some last => decide (last < τ)

/-- Well-formedness of a whole call schedule against the evolving state. -/
def validCalls (st : RateLimiter) : List ℚ → Bool
  | [] => true
  | τ :: rest => nextOk st τ && validCalls (wait_if_needed st τ).2 rest



/-- The inductive invariant of the limiter state: the recorded window is
strictly sorted, bounded by the last recorded time, and no half-open
trailing 60-second window holds more than `N` entries. -/
structure LimiterInv (N : ℕ) (st : RateLimiter) : Prop where
  rpm : st.requests_per_minute = N
  sorted : st.request_times.Sorted (· < ·)
  upper : ∀ x ∈ st.request_times, ∀ last, st.last_request_time = some last →
    x ≤ last
  empty_of_none : st.last_request_time = none → st.request_times = []
  window : ∀ t, windowCountStrict t st.request_times ≤ N

lemma mem_pruneOld_ge (c : ℚ) (l : List ℚ) (hl : l.Sorted (· < ·)) :
    ∀ x ∈ pruneOld c l, c ≤ x := by
  induction l with
  | nil => simp [pruneOld]
  | cons a tl ih =>
    rw [List.sorted_cons] at hl
    intro x hx
    rw [pruneOld, List.dropWhile_cons] at hx
    by_cases ha : a < c
    · simp only [decide_eq_true_eq, ha, if_true] at hx
      exact ih hl.2 x hx
    · simp only [decide_eq_true_eq, ha, if_false] at hx
      push_neg at ha
      rcases List.mem_cons.mp hx with rfl | hx
      · exact ha
      · exact le_of_lt (lt_of_le_of_lt ha (hl.1 x hx))

lemma pruneOld_sublist (c : ℚ) (l : List ℚ) : (pruneOld c l).Sublist l :=
  List.dropWhile_sublist _

lemma pruneOld_nil (c : ℚ) : pruneOld c [] = [] := rfl

lemma nextTime_ge (st : RateLimiter) (τ : ℚ) (hok : nextOk st τ = true) :
    τ ≤ nextTime st τ := by
  unfold nextTime
  cases hl : st.last_request_time with
  | none => exact le_refl τ
  | some last =>
    have hlt : last < τ := by
      simpa [nextOk, hl] using hok
    dsimp only
    by_cases hc : 0 < st.delay_between_requests ∧
        τ - last < st.delay_between_requests
    · rw [if_pos hc]
      linarith [hc.2]
    · rw [if_neg hc]

lemma inv_pruned (N : ℕ) (st : RateLimiter) (inv : LimiterInv N st) (c : ℚ)
    (b : Bool) :
    LimiterInv N { st with request_times := pruneOld c st.request_times
                           lock_held := b } where
  rpm := inv.rpm
  sorted := inv.sorted.sublist (pruneOld_sublist c _)
  upper := fun x hx last hl =>
    inv.upper x ((pruneOld_sublist c _).mem hx) last hl
  empty_of_none := fun h => by rw [inv.empty_of_none h, pruneOld_nil]
  window := fun t =>
    le_trans ((pruneOld_sublist c _).countP_le _) (inv.window t)

lemma inv_record (N : ℕ) (hN : 1 ≤ N) (st : RateLimiter) (τ : ℚ)
    (inv : LimiterInv N st) (hok : nextOk st τ = true)
    (hadm : (pruneOld (τ - 60) st.request_times).length < N ∨
      ∃ oldest rest, pruneOld (τ - 60) st.request_times = oldest :: rest ∧
        oldest ≤ τ - 60) :
    LimiterInv N (recordRequest st (pruneOld (τ - 60) st.request_times) τ).2 := by
  set pruned := pruneOld (τ - 60) st.request_times with hpr
  have hsub : pruned.Sublist st.request_times := pruneOld_sublist _ _
  have hge : ∀ x ∈ pruned, τ - 60 ≤ x := mem_pruneOld_ge _ _ inv.sorted
  have hnt : τ ≤ nextTime st τ := nextTime_ge st τ hok
  have hlt_next : ∀ x ∈ pruned, x < nextTime st τ := by
    intro x hx
    cases hl : st.last_request_time with
    | none =>
      have hemp : pruned = [] := by
        rw [hpr, inv.empty_of_none hl]
        rfl
      rw [hemp] at hx
      exact absurd hx (List.not_mem_nil x)
    | some last =>
      have h1 : x ≤ last := inv.upper x (hsub.mem hx) last hl
      have h2 : last < τ := by simpa [nextOk, hl] using hok
      linarith
  constructor
  · exact inv.rpm
  · rw [recordRequest]
    refine List.pairwise_append.mpr ⟨inv.sorted.sublist hsub, ?_, ?_⟩
    · simp
    · intro x hx y hy
      simp only [List.mem_singleton] at hy
      subst hy
      exact hlt_next x hx
  · intro x hx last hl
    simp only [recordRequest, Option.some.injEq] at hl
    rcases List.mem_append.mp hx with h | h
    · exact hl ▸ le_of_lt (hlt_next x h)
    · simp only [List.mem_singleton] at h
      subst h
      exact hl ▸ le_refl _
  · intro h
    simp [recordRequest] at h
  · intro t
    show (pruned ++ [nextTime st τ]).countP _ ≤ N
    rw [List.countP_append]
    by_cases hp : (t - 60 < nextTime st τ ∧ nextTime st τ ≤ t)
    · have h1 : List.countP (fun x => decide (t - 60 < x ∧ x ≤ t))
          [nextTime st τ] ≤ 1 := List.countP_le_length _
      rcases hq : pruned with _ | ⟨oldest, rest⟩
      · simp only [hq, List.countP_nil]
        omega
      · -- pruned nonempty forces a recorded last call
        cases hl : st.last_request_time with
        | none =>
          have hemp : pruned = [] := by
            rw [hpr, inv.empty_of_none hl]
            rfl
          rw [hemp] at hq
          exact absurd hq (by simp)
        | some last =>
          have hlast_lt : last < τ := by simpa [nextOk, hl] using hok
          have hlen : pruned.length ≤ N := by
            have hall : ∀ x ∈ pruned,
                (fun x => decide (last - 60 < x ∧ x ≤ last)) x = true := by
              intro x hx
              have h1 := hge x hx
              have h2 := inv.upper x (hsub.mem hx) last hl
              simp only [decide_eq_true_eq]
              constructor
              · linarith
              · exact h2
            calc pruned.length
                = pruned.countP (fun x => decide (last - 60 < x ∧ x ≤ last)) :=
                  (List.countP_eq_length.mpr hall).symm
              _ ≤ st.request_times.countP
                    (fun x => decide (last - 60 < x ∧ x ≤ last)) :=
                  hsub.countP_le _
              _ ≤ N := inv.window last
          have hlenq : (oldest :: rest).length = pruned.length := by
            rw [hq]
          rcases hadm with hsmall | ⟨o, r, heq, hold⟩
          · have hc1 : (oldest :: rest).countP
                (fun x => decide (t - 60 < x ∧ x ≤ t))
                ≤ (oldest :: rest).length := List.countP_le_length _
            have hlc : (oldest :: rest).length = rest.length + 1 := rfl
            omega
          · have hold' : oldest ≤ τ - 60 := by
              have h := heq.symm.trans hq
              injection h with h1 h2
              rw [← h1]
              exact hold
            have hnotp : ¬ (t - 60 < oldest ∧ oldest ≤ t) := by
              intro hcon
              have hτt : τ ≤ t := le_trans hnt hp.2
              linarith [hcon.1]
            have hsplit : (oldest :: rest).countP
                (fun x => decide (t - 60 < x ∧ x ≤ t))
                = rest.countP (fun x => decide (t - 60 < x ∧ x ≤ t)) := by
              apply List.countP_cons_of_neg
              simp only [decide_eq_true_eq]
              exact hnotp
            have hrest : rest.countP (fun x => decide (t - 60 < x ∧ x ≤ t))
                ≤ rest.length := List.countP_le_length _
            have hlc : (oldest :: rest).length = rest.length + 1 := rfl
            omega
    · have h0 : List.countP (fun x => decide (t - 60 < x ∧ x ≤ t))
          [nextTime st τ] = 0 := by
        simp [hp]
      rw [h0]
      calc pruned.countP _ ≤ st.request_times.countP _ := hsub.countP_le _
        _ ≤ N := inv.window t



lemma inv_wait (N : ℕ) (hN : 1 ≤ N) (st : RateLimiter) (τ : ℚ)
    (inv : LimiterInv N st) (hok : nextOk st τ = true) :
    LimiterInv N (wait_if_needed st τ).2 := by
  unfold wait_if_needed
  by_cases hlock : st.lock_held = true
  · rw [if_pos hlock]
    exact inv
  · rw [if_neg hlock]
    unfold admitOrBlock
    by_cases hle : st.requests_per_minute
        ≤ (pruneOld (τ - 60) st.request_times).length
    · rw [if_pos hle]
      rcases hq : pruneOld (τ - 60) st.request_times with _ | ⟨oldest, rest⟩
      · dsimp only
        have h := inv_pruned N st inv (τ - 60) st.lock_held
        rw [hq] at h
        exact h
      · dsimp only
        by_cases hw : 0 < oldest + 60 - τ
        · rw [if_pos hw]
          have h := inv_pruned N st inv (τ - 60) true
          rw [hq] at h
          exact h
        · rw [if_neg hw]
          have h := inv_record N hN st τ inv hok
            (Or.inr ⟨oldest, rest, hq, by linarith⟩)
          rw [hq] at h
          exact h
    · rw [if_neg hle]
      push_neg at hle
      exact inv_record N hN st τ inv hok (Or.inl (by rw [← inv.rpm]; exact hle))

lemma inv_run (N : ℕ) (hN : 1 ≤ N) (calls : List ℚ) (st : RateLimiter)
    (inv : LimiterInv N st) (hv : validCalls st calls = true) :
    LimiterInv N (runLimiter st calls) := by
  induction calls generalizing st with
  | nil => exact inv
  | cons τ rest ih =>
    rw [validCalls, Bool.and_eq_true] at hv
    exact ih _ (inv_wait N hN st τ inv hv.1) hv.2

lemma inv_init (N : ℕ) (delay : ℚ) : LimiterInv N (mkLimiter N delay) where
  rpm := rfl
  sorted := List.sorted_nil
  upper := fun x hx => absurd hx (List.not_mem_nil x)
  empty_of_none := fun _ => rfl
  window := fun _ => Nat.zero_le N

/-- C3 amended: for a limiter configured for `N ≥ 1` requests per minute
and any well-formed call schedule, no half-open trailing 60-second window
`(t-60, t]` ever contains more than `N` recorded timestamps.  (The closed
window of the original claim fails at the exact 60-second boundary, see the
counterexample.) -/
theorem rate_limiter_window_bound (N : ℕ) (delay : ℚ) (calls : List ℚ)
    (t : ℚ) (hN : 1 ≤ N)
    (hv : validCalls (mkLimiter N delay) calls = true) :
    windowCountStrict t (runLimiter (mkLimiter N delay) calls).request_times
      ≤ N :=
  (inv_run N hN calls _ (inv_init N delay) hv).window t

/-- Witness for C3 (amended): limit 1/minute, calls at 0s and 61s. -/
theorem rate_limiter_window_bound_witness :
    (1 : ℕ) ≤ 1
    ∧ validCalls (mkLimiter 1 0) [0, 61] = true
    ∧ windowCountStrict 61
        (runLimiter (mkLimiter 1 0) [0, 61]).request_times ≤ 1 := by
  have hv : validCalls (mkLimiter 1 0) [0, 61] = true := by
    norm_num [validCalls, nextOk, wait_if_needed, admitOrBlock, pruneOld,
      recordRequest, nextTime, mkLimiter, List.dropWhile]
  exact ⟨le_refl 1, hv,
    rate_limiter_window_bound 1 0 [0, 61] 61 (le_refl 1) hv⟩

/-- C3 counterexample: limit 1/minute, calls at 0s and 60s.  Both calls
complete (the second is re-admitted at the exact boundary: the entry aged
exactly 60s is kept by the strict `<` pop but treated as expired by the
`wait_time > 0` test), leaving the window `[0, 60]` — a trailing 60-second
interval containing 2 > N = 1 recorded timestamps. -/
theorem rate_limiter_window_closed_cex :
    runResults (mkLimiter 1 0) [0, 60] = [.completes 0, .completes 60]
    ∧ (runLimiter (mkLimiter 1 0) [0, 60]).request_times = [0, 60]
    ∧ windowCountClosed 60
        (runLimiter (mkLimiter 1 0) [0, 60]).request_times = 2
    ∧ ¬ (∀ t, windowCountClosed t
          (runLimiter (mkLimiter 1 0) [0, 60]).request_times ≤ 1) := by
  have h2 : (runLimiter (mkLimiter 1 0) [0, 60]).request_times = [0, 60] := by
    norm_num [runLimiter, wait_if_needed, admitOrBlock, pruneOld,
      recordRequest, nextTime, mkLimiter, List.dropWhile]
  have h3 : windowCountClosed 60
      (runLimiter (mkLimiter 1 0) [0, 60]).request_times = 2 := by
    rw [h2]
    norm_num [windowCountClosed, List.countP_cons]
  refine ⟨?_, h2, h3, ?_⟩
  · norm_num [runResults, wait_if_needed, admitOrBlock, pruneOld,
      recordRequest, nextTime, mkLimiter, List.dropWhile]
  · intro hall
    have h60 := hall 60
    rw [h3] at h60
    omega

/-- C4 (code bug): limit 1/minute, calls at 0s and 30s.  The first call
completes and records t=0.  The second finds the window full with 30s to
wait, sleeps, and then re-invokes `wait_if_needed()` recursively while the
same thread still holds the non-reentrant `threading.Lock` — it blocks
forever instead of returning, and every later call (here at t=1000s, long
after the window cleared) blocks on the lock as well. -/
theorem rate_limiter_deadlock_bug :
    (wait_if_needed (mkLimiter 1 0) 0).1 = .completes 0
    ∧ (wait_if_needed (wait_if_needed (mkLimiter 1 0) 0).2 30).1 = .blocked
    ∧ (wait_if_needed (wait_if_needed (mkLimiter 1 0) 0).2 30).2.lock_held
      = true
    ∧ (wait_if_needed
        (wait_if_needed (wait_if_needed (mkLimiter 1 0) 0).2 30).2 1000).1
      = .blocked := by
  norm_num [wait_if_needed, admitOrBlock, pruneOld, recordRequest, nextTime,
    mkLimiter, List.dropWhile]

end StockScreener
